import Mathlib

/-!
Shallow embedding of the inventory HTTP service in `app.js`.

The service keeps a mutable in-memory array `inventory` of items, mirrors it
to an `inventory.json` snapshot file via `saveInventory`, and keeps uploaded
photo blobs in a `photos/` directory.  We model the mutable process state as a
`ServerState` (in-memory list, disk snapshot contents, photo directory
contents) and each Express route handler as a pure function from state and
decoded request to a response, a new state, and a trace of file-system effects
(`Ev.save`, `Ev.unlink`) in the order the handler awaits them.

Request ids arrive as strings and are converted with JavaScript `Number(...)`;
handlers only test `Number.isNaN` and integer equality, so we model the
converted value as `Option Int` where `none` stands for `NaN` (a malformed,
non-numeric id) and `some n` for an integer value.  Absent body fields
(`undefined` in JavaScript) are modelled as `none` of `Option String`.
-/

namespace Inventory

/-- One inventory record, as stored in the in-memory array and in
`inventory.json`: `{ id, inventory_name, description, photoFilename }`
(`photoFilename : null` means "no photo"). -/
structure Item where
  id : Int
  inventory_name : String
  description : String
  photoFilename : Option String
  deriving Repr, DecidableEq

/-- The in-memory ordered collection of items (the `inventory` array). -/
abbrev Store := List Item

/-- Process-visible mutable state: the in-memory `inventory` array, the parsed
contents of the on-disk `inventory.json` snapshot, and the list of filenames
present in the `photos/` directory. -/
structure ServerState where
  inventory : Store
  disk : Store
  photos : List String
  deriving Repr, DecidableEq

/-- Fresh server started with no snapshot: `loadInventory` leaves `inventory`
empty and `saveInventory` writes the empty array. -/
def emptyState : ServerState := { inventory := [], disk := [], photos := [] }

/-- JavaScript `String.prototype.trim` on the character list: drop leading and
trailing whitespace. -/
def trimCharList (l : List Char) : List Char :=
  ((l.dropWhile Char.isWhitespace).reverse.dropWhile Char.isWhitespace).reverse

/-- JavaScript `s.trim()`. -/
def jsTrim (s : String) : String := String.mk (trimCharList s.data)

/-- JavaScript truthiness of an optional string field: `undefined` and the
empty string are falsy, every other string is truthy (`has_photo` is `'on'`
when the checkbox is set). -/
def truthy : Option String → Bool
  | none => false
  | some s => !(s == "")

/-- Substring search on character lists, JavaScript
`hay.includes(needle)`. -/
def listContains (hay needle : List Char) : Bool :=
  match hay with
  | [] => needle.isEmpty
  | c :: rest => needle.isPrefixOf (c :: rest) || listContains rest needle

/-- JavaScript `s.includes(sub)`. -/
def jsIncludes (s sub : String) : Bool := listContains s.data sub.data

/-- JavaScript `Math.max(...)` over a non-empty integer list (the empty case
is unreachable in `generateId`, which guards on emptiness first). -/
def maxNum : List Int → Int
  | [] => 0
  | x :: xs => xs.foldl max x

/-- `generateId()` from `app.js`: `1` if the inventory is empty, otherwise
`Math.max(...inventory.map(item => Number(item.id))) + 1`. -/
def generateId (inv : Store) : Int :=
  if inv.isEmpty then 1 else maxNum (inv.map Item.id) + 1

/-- `findItemById(id)`: `inventory.find(item => Number(item.id) === Number(id))`,
the first item with the given id. -/
def findItemById (inv : Store) (id : Int) : Option Item :=
  inv.find? (fun item => item.id == id)

/-- `buildPhotoUrl(id)`: the fixed path pattern derived from the item id. -/
def buildPhotoUrl (id : Int) : String := "/inventory/" ++ toString id ++ "/photo"

/-- The text the search handler appends to a description when `has_photo` is
truthy: a space, then `[Photo: <photoUrl>]`. -/
def photoLinkText (id : Int) : String :=
  " [Photo: " ++ buildPhotoUrl id ++ "]"

/-- The JSON object the handlers serialize for an item:
`{ id, inventory_name, description, photoUrl }` where `photoUrl` is
`buildPhotoUrl(id)` if the item has a photo and `null` otherwise. -/
structure ItemView where
  id : Int
  inventory_name : String
  description : String
  photoUrl : Option String
  deriving Repr, DecidableEq

/-- Serialize an item to its response form. -/
def itemView (it : Item) : ItemView :=
  { id := it.id
    inventory_name := it.inventory_name
    description := it.description
    photoUrl := match it.photoFilename with
      | some _ => some (buildPhotoUrl it.id)
      | none => none }

/-- HTTP responses the modelled handlers produce (status plus JSON payload;
`okPhoto f` is a 200 serving the bytes of blob `f`). -/
inductive Resp where
  | created (v : ItemView)
  | okItem (v : ItemView)
  | okMessage (m : String)
  | okPhoto (f : String)
  | badRequest (e : String)
  | notFound (e : String)
  deriving Repr, DecidableEq

/-- HTTP status code of a response. -/
def Resp.status : Resp → Nat
  | .created _ => 201
  | .okItem _ => 200
  | .okMessage _ => 200
  | .okPhoto _ => 200
  | .badRequest _ => 400
  | .notFound _ => 404

/-- File-system effects a handler awaits, in order: `save s` is
`saveInventory()` writing snapshot `s` to `inventory.json`; `unlink f` is
`fs.unlink` of photo blob `f`. -/
inductive Ev where
  | save (snapshot : Store)
  | unlink (filename : String)
  deriving Repr, DecidableEq

/-- Result of running one handler: the response, the state after the handler
returns, and the ordered file-system effect trace. -/
structure Out where
  resp : Resp
  state : ServerState
  trace : List Ev
  deriving Repr, DecidableEq

/-- Mutate the first item whose id matches (JavaScript `find` returns a
reference and the handler mutates that object in place). -/
def updateFirst (inv : Store) (id : Int) (f : Item → Item) : Store :=
  match inv with
  | [] => []
  | it :: rest => if it.id == id then f it :: rest else it :: updateFirst rest id f

/-- Remove the first item whose id matches (`findIndex` + `splice(index, 1)`). -/
def removeFirst (inv : Store) (id : Int) : Store :=
  match inv with
  | [] => []
  | it :: rest => if it.id == id then rest else it :: removeFirst rest id

/-- Decoded multipart body of `POST /register`: `inventory_name`,
`description`, and the filename multer generated for the uploaded `photo`
file (`none` when no file was sent). -/
structure RegisterReq where
  inventory_name : Option String
  description : Option String
  photoFile : Option String
  deriving Repr, DecidableEq

/-- Decoded JSON body of `PUT /inventory/:id`. -/
structure UpdateReq where
  inventory_name : Option String
  description : Option String
  deriving Repr, DecidableEq

/-- Decoded multipart body of `PUT /inventory/:id/photo`. -/
structure PhotoReq where
  photoFile : Option String
  deriving Repr, DecidableEq

/-- Decoded form body of `POST /search`: `Number(req.body.id)` (`none` = NaN)
and the raw `has_photo` field. -/
structure SearchReq where
  id : Option Int
  has_photo : Option String
  deriving Repr, DecidableEq

/-- The `upload.single('photo')` middleware: multer writes the uploaded file
into the photos directory (under its generated name) before the route handler
body runs, whether or not the handler later succeeds. -/
def multerStore (st : ServerState) (photoFile : Option String) : ServerState :=
  match photoFile with
  | some f => { st with photos := st.photos ++ [f] }
  | none => st

/-- The JavaScript test `!inventory_name || inventory_name.trim() === ''`:
the field is `undefined`, the empty string, or blank after trimming. -/
def nameBlank : Option String → Bool
  | none => true
  | some s => s == "" || jsTrim s == ""

/-- Handler of `POST /register`: multer stores the photo first; a blank or
missing `inventory_name` is a 400; otherwise assign `generateId()`, push the
trimmed item, `await saveInventory()`, and answer 201 with the item view. -/
def postRegister (st0 : ServerState) (req : RegisterReq) : Out :=
  let st := multerStore st0 req.photoFile
  if nameBlank req.inventory_name then
    { resp := .badRequest "inventory_name is required", state := st, trace := [] }
  else
    let item : Item :=
      { id := generateId st.inventory
        inventory_name := jsTrim (req.inventory_name.getD "")
        description := jsTrim (req.description.getD "")
        photoFilename := req.photoFile }
    let inv := st.inventory ++ [item]
    { resp := .created (itemView item)
      state := { st with inventory := inv, disk := inv }
      trace := [Ev.save inv] }

/-- Handler of `GET /inventory/:id`: 400 on NaN id, 404 when absent, else the
item view. Read-only. -/
def getInventoryId (st : ServerState) (idNum : Option Int) : Out :=
  match idNum with
  | none => { resp := .badRequest "Invalid id", state := st, trace := [] }
  | some id =>
    match findItemById st.inventory id with
    | none => { resp := .notFound "Item not found", state := st, trace := [] }
    | some item => { resp := .okItem (itemView item), state := st, trace := [] }

/-- `String(x).trim()` applied to a provided field, then assignment: the patch
a `PUT /inventory/:id` body applies to the found item, field by field. -/
def applyPatch (req : UpdateReq) (it0 : Item) : Item :=
  let it1 :=
    match req.inventory_name with
    | some nm => { it0 with inventory_name := jsTrim nm }
    | none => it0
  match req.description with
  | some d => { it1 with description := jsTrim d }
  | none => it1

/-- Handler of `PUT /inventory/:id`: 400 on NaN id, 404 when absent; otherwise
overwrite exactly the provided fields (trimmed), `await saveInventory()`, and
answer 200 with the mutated item. -/
def putInventoryId (st : ServerState) (idNum : Option Int) (req : UpdateReq) : Out :=
  match idNum with
  | none => { resp := .badRequest "Invalid id", state := st, trace := [] }
  | some id =>
    match findItemById st.inventory id with
    | none => { resp := .notFound "Item not found", state := st, trace := [] }
    | some item =>
      let item := applyPatch req item
      let inv := updateFirst st.inventory id (applyPatch req)
      { resp := .okItem (itemView item)
        state := { st with inventory := inv, disk := inv }
        trace := [Ev.save inv] }

/-- Handler of `GET /inventory/:id/photo`: 400 on NaN id; 404 when the item is
absent, has no photo, or the blob file is missing (`ENOENT`); else 200 with
the blob. Read-only. -/
def getInventoryIdPhoto (st : ServerState) (idNum : Option Int) : Out :=
  match idNum with
  | none => { resp := .badRequest "Invalid id", state := st, trace := [] }
  | some id =>
    match findItemById st.inventory id with
    | none => { resp := .notFound "Photo not found", state := st, trace := [] }
    | some item =>
      match item.photoFilename with
      | none => { resp := .notFound "Photo not found", state := st, trace := [] }
      | some f =>
        if st.photos.contains f then
          { resp := .okPhoto f, state := st, trace := [] }
        else
          { resp := .notFound "Photo not found", state := st, trace := [] }

/-- Handler of `PUT /inventory/:id/photo`: multer stores the new blob first;
400 on NaN id, 404 when the item is absent, 400 when no file was sent; else
overwrite `photoFilename` (the old blob is not deleted), `await
saveInventory()`, 200. -/
def putInventoryIdPhoto (st0 : ServerState) (idNum : Option Int) (req : PhotoReq) : Out :=
  let st := multerStore st0 req.photoFile
  match idNum with
  | none => { resp := .badRequest "Invalid id", state := st, trace := [] }
  | some id =>
    match findItemById st.inventory id with
    | none => { resp := .notFound "Item not found", state := st, trace := [] }
    | some item =>
      match req.photoFile with
      | none => { resp := .badRequest "photo file is required", state := st, trace := [] }
      | some f =>
        let item := { item with photoFilename := some f }
        let inv := updateFirst st.inventory id (fun it => { it with photoFilename := some f })
        { resp := .okItem (itemView item)
          state := { st with inventory := inv, disk := inv }
          trace := [Ev.save inv] }

/-- Handler of `DELETE /inventory/:id`: 400 on NaN id, 404 when absent; else
splice the item out, `await saveInventory()`, then best-effort
`fs.unlink` of its photo blob (errors ignored), and answer 200. -/
def deleteInventoryId (st : ServerState) (idNum : Option Int) : Out :=
  match idNum with
  | none => { resp := .badRequest "Invalid id", state := st, trace := [] }
  | some id =>
    match findItemById st.inventory id with
    | none => { resp := .notFound "Item not found", state := st, trace := [] }
    | some removed =>
      let inv := removeFirst st.inventory id
      let st1 := { st with inventory := inv, disk := inv }
      match removed.photoFilename with
      | none =>
        { resp := .okMessage "Item deleted", state := st1, trace := [Ev.save inv] }
      | some f =>
        { resp := .okMessage "Item deleted"
          state := { st1 with photos := st1.photos.erase f }
          trace := [Ev.save inv, Ev.unlink f] }

/-- Handler of `POST /search`: 400 on NaN id, 404 when absent; when
`has_photo` is truthy, the item has a photo, and the description does not
already include the derived link text, append the link text and `await
saveInventory()`; always answer 200 with the (possibly mutated) item. -/
def postSearch (st : ServerState) (req : SearchReq) : Out :=
  match req.id with
  | none => { resp := .badRequest "Invalid id", state := st, trace := [] }
  | some id =>
    match findItemById st.inventory id with
    | none => { resp := .notFound "Item not found", state := st, trace := [] }
    | some item =>
      if truthy req.has_photo && item.photoFilename.isSome then
        let linkText := photoLinkText item.id
        if jsIncludes item.description linkText then
          { resp := .okItem (itemView item), state := st, trace := [] }
        else
          let item := { item with description := item.description ++ linkText }
          let inv := updateFirst st.inventory id
            (fun it => { it with description := it.description ++ linkText })
          { resp := .okItem (itemView item)
            state := { st with inventory := inv, disk := inv }
            trace := [Ev.save inv] }
      else
        { resp := .okItem (itemView item), state := st, trace := [] }

/-- Run a sequence of register requests in order, threading the state. -/
def registerMany (st : ServerState) (reqs : List RegisterReq) : ServerState :=
  match reqs with
  | [] => st
  | r :: rs => registerMany (postRegister st r).state rs

/-- The id list `[1, 2, ..., n]` that `N` registrations on an empty store
produce. -/
def idRange (n : Nat) : List Int :=
  (List.range n).map (fun i : Nat => (i : Int) + 1)

/-! Helper lemmas about `maxNum`, `generateId` and `idRange`. -/

lemma foldl_max_mem (xs : List Int) (x : Int) : xs.foldl max x ∈ x :: xs := by
  induction xs generalizing x with
  | nil => simp
  | cons y ys ih =>
    rw [List.foldl_cons]
    have h := ih (max x y)
    rcases List.mem_cons.mp h with h | h
    · rcases max_choice x y with hx | hy
      · rw [h, hx]; exact List.mem_cons_self _ _
      · rw [h, hy]; exact List.mem_cons.mpr (Or.inr (List.mem_cons_self _ _))
    · exact List.mem_cons.mpr (Or.inr (List.mem_cons.mpr (Or.inr h)))

lemma le_foldl_max (xs : List Int) (x : Int) : ∀ y ∈ x :: xs, y ≤ xs.foldl max x := by
  induction xs generalizing x with
  | nil => intro y hy; simp at hy; simp [hy]
  | cons z zs ih =>
    intro y hy
    rcases List.mem_cons.mp hy with h | h
    · subst h
      exact le_trans (le_max_left y z) (ih (max y z) _ (List.mem_cons_self _ _))
    · rcases List.mem_cons.mp h with h | h
      · subst h
        exact le_trans (le_max_right x y) (ih (max x y) _ (List.mem_cons_self _ _))
      · exact ih (max x z) y (List.mem_cons.mpr (Or.inr h))

lemma maxNum_mem {l : List Int} (h : l ≠ []) : maxNum l ∈ l := by
  cases l with
  | nil => exact absurd rfl h
  | cons x xs => exact foldl_max_mem xs x

lemma le_maxNum {l : List Int} : ∀ y ∈ l, y ≤ maxNum l := by
  cases l with
  | nil => intro y hy; simp at hy
  | cons x xs => exact le_foldl_max xs x

lemma maxNum_append_singleton {l : List Int} (h : l ≠ []) (y : Int) :
    maxNum (l ++ [y]) = max (maxNum l) y := by
  cases l with
  | nil => exact absurd rfl h
  | cons x xs => simp [maxNum, List.foldl_append]

lemma idRange_succ (n : Nat) : idRange (n + 1) = idRange n ++ [(n : Int) + 1] := by
  simp [idRange, List.range_succ]

lemma idRange_ne_nil (n : Nat) : idRange (n + 1) ≠ [] := by
  simp [idRange, List.range_succ]

lemma mem_idRange_le {n : Nat} {x : Int} : x ∈ idRange n → x ≤ (n : Int) := by
  induction n with
  | zero => intro hx; simp [idRange] at hx
  | succ k ih =>
    intro hx
    rw [idRange_succ] at hx
    rcases List.mem_append.mp hx with h | h
    · have := ih h; push_cast; omega
    · simp at h; subst h; push_cast; omega

lemma maxNum_idRange (n : Nat) : maxNum (idRange (n + 1)) = (n : Int) + 1 := by
  induction n with
  | zero => rfl
  | succ k ih =>
    rw [idRange_succ (k + 1), maxNum_append_singleton (idRange_ne_nil k), ih]
    have : (k : Int) + 1 ≤ (k + 1 : Nat) + 1 := by push_cast; omega
    rw [max_eq_right this]

lemma generateId_idRange {inv : Store} {k : Nat} (h : inv.map Item.id = idRange k) :
    generateId inv = (k : Int) + 1 := by
  cases k with
  | zero =>
    have : inv = [] := by
      have := h; simpa [idRange] using this
    simp [generateId, this]
  | succ m =>
    have hne : inv ≠ [] := by
      intro he; rw [he] at h; exact idRange_ne_nil m h.symm
    have : inv.isEmpty = false := by
      cases inv with
      | nil => exact absurd rfl hne
      | cons a l => rfl
    rw [generateId, this, if_neg (by simp), h, maxNum_idRange]
    push_cast; ring

/-! Helper lemmas about the handlers and list surgery. -/

lemma multerStore_inventory (st : ServerState) (f : Option String) :
    (multerStore st f).inventory = st.inventory := by
  cases f <;> rfl

lemma multerStore_disk (st : ServerState) (f : Option String) :
    (multerStore st f).disk = st.disk := by
  cases f <;> rfl

/-- The item that a successful `POST /register` pushes. -/
def registeredItem (st : ServerState) (req : RegisterReq) : Item :=
  { id := generateId st.inventory
    inventory_name := jsTrim (req.inventory_name.getD "")
    description := jsTrim (req.description.getD "")
    photoFilename := req.photoFile }

lemma postRegister_inventory {st : ServerState} {req : RegisterReq}
    (h : nameBlank req.inventory_name = false) :
    (postRegister st req).state.inventory = st.inventory ++ [registeredItem st req] := by
  simp [postRegister, h, registeredItem, multerStore_inventory]

lemma postRegister_resp {st : ServerState} {req : RegisterReq}
    (h : nameBlank req.inventory_name = false) :
    (postRegister st req).resp = .created (itemView (registeredItem st req)) := by
  simp [postRegister, h, registeredItem, multerStore_inventory]

lemma registerMany_idRange :
    ∀ (reqs : List RegisterReq) (st : ServerState) (k : Nat),
      (∀ r ∈ reqs, nameBlank r.inventory_name = false) →
      st.inventory.map Item.id = idRange k →
      (registerMany st reqs).inventory.map Item.id = idRange (k + reqs.length) := by
  intro reqs
  induction reqs with
  | nil => intro st k _ h; simpa using h
  | cons r rs ih =>
    intro st k hv h
    have hr : nameBlank r.inventory_name = false := hv r (List.mem_cons_self _ _)
    have hstep : (postRegister st r).state.inventory.map Item.id = idRange (k + 1) := by
      rw [postRegister_inventory hr, List.map_append, h, idRange_succ]
      simp [registeredItem, generateId_idRange h]
    have := ih (postRegister st r).state (k + 1)
      (fun x hx => hv x (List.mem_cons.mpr (Or.inr hx))) hstep
    have hlen : k + 1 + rs.length = k + (r :: rs).length := by
      simp; omega
    rw [registerMany]
    rw [this, hlen]

lemma findItemById_some {inv : Store} {id : Int} {it : Item}
    (h : findItemById inv id = some it) : it.id = id := by
  have := List.find?_some h
  simpa using this

lemma findItemById_isSome_of_mem {inv : Store} {id : Int}
    (h : id ∈ inv.map Item.id) : ∃ it, findItemById inv id = some it := by
  rcases List.mem_map.mp h with ⟨it, hit, hid⟩
  have hs : (inv.find? (fun x => x.id == id)).isSome :=
    List.find?_isSome.mpr ⟨it, hit, by simp [hid]⟩
  rcases Option.isSome_iff_exists.mp hs with ⟨x, hx⟩
  exact ⟨x, hx⟩

lemma findItemById_updateFirst {inv : Store} {id : Int} {f : Item → Item}
    (hf : ∀ it, (f it).id = it.id) :
    findItemById (updateFirst inv id f) id = (findItemById inv id).map f := by
  induction inv with
  | nil => rfl
  | cons it rest ih =>
    cases h : (it.id == id) with
    | true =>
      have hp : ((f it).id == id) = true := by rw [hf it]; exact h
      simp only [updateFirst, h, if_true, findItemById, List.find?_cons, hp]
      rfl
    | false =>
      simp only [updateFirst, h, Bool.false_eq_true, if_false, findItemById,
        List.find?_cons]
      exact ih

lemma findItemById_removeFirst {inv : Store} {id : Int}
    (hnd : (inv.map Item.id).Nodup) :
    findItemById (removeFirst inv id) id = none := by
  induction inv with
  | nil => rfl
  | cons it rest ih =>
    simp only [List.map_cons, List.nodup_cons] at hnd
    obtain ⟨hni, hnd'⟩ := hnd
    cases h : (it.id == id) with
    | true =>
      have hid : it.id = id := by simpa using h
      simp only [removeFirst, h, if_true, findItemById]
      apply List.find?_eq_none.mpr
      intro x hx
      simp only [Bool.not_eq_true, beq_eq_false_iff_ne, ne_eq]
      intro hxid
      exact hni (by rw [hid, ← hxid]; exact List.mem_map_of_mem _ hx)
    | false =>
      simp only [removeFirst, h, Bool.false_eq_true, if_false, findItemById,
        List.find?_cons]
      exact ih hnd'

lemma mem_updateFirst {inv : Store} {id : Int} {f : Item → Item} {x : Item}
    (hx : x ∈ updateFirst inv id f) : x ∈ inv ∨ ∃ y ∈ inv, x = f y := by
  induction inv with
  | nil => simp [updateFirst] at hx
  | cons it rest ih =>
    cases h : (it.id == id) with
    | true =>
      simp only [updateFirst, h, if_true] at hx
      rcases List.mem_cons.mp hx with h1 | h1
      · exact Or.inr ⟨it, List.mem_cons_self _ _, h1⟩
      · exact Or.inl (List.mem_cons.mpr (Or.inr h1))
    | false =>
      simp only [updateFirst, h, Bool.false_eq_true, if_false] at hx
      rcases List.mem_cons.mp hx with h1 | h1
      · exact Or.inl (by rw [h1]; exact List.mem_cons_self _ _)
      · rcases ih h1 with h2 | ⟨y, hy, h2⟩
        · exact Or.inl (List.mem_cons.mpr (Or.inr h2))
        · exact Or.inr ⟨y, List.mem_cons.mpr (Or.inr hy), h2⟩

lemma map_id_removeFirst {inv : Store} {xs : List Int} {y : Int} :
    inv.map Item.id = xs ++ [y] → y ∉ xs →
    (removeFirst inv y).map Item.id = xs := by
  induction inv generalizing xs with
  | nil => intro h _; simp at h
  | cons it rest ih =>
    intro h hy
    cases xs with
    | nil =>
      simp only [List.map_cons, List.nil_append, List.cons.injEq] at h
      obtain ⟨h1, h2⟩ := h
      have hb : (it.id == y) = true := by simp [h1]
      simp only [removeFirst, hb, if_true]
      exact h2
    | cons x xs' =>
      simp only [List.map_cons, List.cons_append, List.cons.injEq] at h
      obtain ⟨h1, h2⟩ := h
      have hxy : x ≠ y := fun he => hy (he ▸ List.mem_cons_self _ _)
      have hb : (it.id == y) = false := by
        simp only [beq_eq_false_iff_ne, ne_eq, h1]; exact hxy
      simp only [removeFirst, hb, Bool.false_eq_true, if_false, List.map_cons]
      exact List.cons_eq_cons.mpr ⟨h1, ih h2 (fun hm => hy (List.mem_cons.mpr (Or.inr hm)))⟩

lemma isPrefixOf_self (l : List Char) : l.isPrefixOf l = true :=
  List.isPrefixOf_iff_prefix.mpr List.prefix_rfl

lemma listContains_append_self (a b : List Char) : listContains (a ++ b) b = true := by
  induction a with
  | nil =>
    cases b with
    | nil => rfl
    | cons c rest => simp [listContains, isPrefixOf_self]
  | cons c a' ih => simp [listContains, ih]

lemma jsIncludes_append_self (d t : String) : jsIncludes (d ++ t) t = true := by
  rw [jsIncludes, String.data_append]
  exact listContains_append_self d.data t.data

lemma nameBlank_false {o : Option String} (h : nameBlank o = false) :
    ∃ s, o = some s ∧ jsTrim s ≠ "" := by
  cases o with
  | none => simp [nameBlank] at h
  | some s =>
    simp only [nameBlank, Bool.or_eq_false_iff, beq_eq_false_iff_ne, ne_eq] at h
    exact ⟨s, rfl, h.2⟩

lemma postRegister_blank {st : ServerState} {req : RegisterReq}
    (h : nameBlank req.inventory_name = true) :
    (postRegister st req).resp = .badRequest "inventory_name is required"
    ∧ (postRegister st req).state.inventory = st.inventory
    ∧ (postRegister st req).state.disk = st.disk
    ∧ (postRegister st req).trace = [] := by
  refine ⟨?_, ?_, ?_, ?_⟩ <;>
    simp [postRegister, h, multerStore_inventory, multerStore_disk]

lemma applyPatch_id (req : UpdateReq) (it : Item) : (applyPatch req it).id = it.id := by
  rcases req with ⟨n?, d?⟩
  cases n? <;> cases d? <;> rfl

lemma applyPatch_name (req : UpdateReq) (it : Item) :
    (applyPatch req it).inventory_name
      = match req.inventory_name with
        | none => it.inventory_name
        | some nm => jsTrim nm := by
  rcases req with ⟨n?, d?⟩
  cases n? <;> cases d? <;> rfl

/-! Claim theorems. -/

/-- C2: starting from the empty store, a sequence of N successful Register
operations (every request name non-blank) yields exactly N items whose ids
are 1..N in registration order; moreover `generateId` returns 1 on the empty
store and on a non-empty store returns one more than an id that is present
and maximal. -/
theorem register_assigns_sequential_ids (reqs : List RegisterReq)
    (hv : ∀ r ∈ reqs, nameBlank r.inventory_name = false) :
    (registerMany emptyState reqs).inventory.map Item.id = idRange reqs.length
    ∧ (registerMany emptyState reqs).inventory.length = reqs.length
    ∧ generateId [] = 1
    ∧ ∀ inv : Store, inv ≠ [] →
        (generateId inv - 1) ∈ inv.map Item.id
        ∧ ∀ x ∈ inv.map Item.id, x ≤ generateId inv - 1 := by
  have h0 : (emptyState.inventory.map Item.id) = idRange 0 := rfl
  have h1 := registerMany_idRange reqs emptyState 0 hv h0
  simp only [Nat.zero_add] at h1
  refine ⟨h1, ?_, rfl, ?_⟩
  · have hlen := congrArg List.length h1
    rw [List.length_map] at hlen
    rw [hlen, idRange, List.length_map, List.length_range]
  · intro inv hne
    have hme : inv.map Item.id ≠ [] := by simpa using hne
    have hie : inv.isEmpty = false := by
      cases inv with
      | nil => exact absurd rfl hne
      | cons a l => rfl
    have hgen : generateId inv = maxNum (inv.map Item.id) + 1 := by
      rw [generateId, hie]; simp
    constructor
    · rw [hgen]
      simpa using maxNum_mem hme
    · intro x hx
      rw [hgen]
      have := le_maxNum x hx
      omega

/-- Witness for C2: two concrete registrations on the empty store produce
ids `[1, 2]`. -/
theorem register_assigns_sequential_ids_witness :
    (registerMany emptyState
      [ { inventory_name := some "Laptop", description := some "Dell", photoFile := none },
        { inventory_name := some "Mouse", description := none, photoFile := none } ]).inventory.map
      Item.id = idRange 2 :=
  (register_assigns_sequential_ids _ (by decide)).1

/-- C3: a Register request with a missing or blank name answers 400
`inventory_name is required` and leaves the in-memory store and the disk
snapshot unchanged, with no persistence write in the effect trace. -/
theorem register_blank_name_rejected (st : ServerState) (req : RegisterReq)
    (h : nameBlank req.inventory_name = true) :
    (postRegister st req).resp = .badRequest "inventory_name is required"
    ∧ (postRegister st req).state.inventory = st.inventory
    ∧ (postRegister st req).state.disk = st.disk
    ∧ (postRegister st req).trace = [] :=
  postRegister_blank h

/-- Witness for C3: registering with a whitespace-only name on the empty
store is rejected with the 400 error. -/
theorem register_blank_name_rejected_witness :
    (postRegister emptyState
      { inventory_name := some "   ", description := some "x", photoFile := none }).resp
      = .badRequest "inventory_name is required" :=
  (register_blank_name_rejected emptyState _ (by decide)).1

/-- C7: every id-taking handler (Get, Update, Delete, GetPhoto, ReplacePhoto,
Search), given a malformed id (`Number(...)` is NaN), answers 400 Invalid id
and leaves the item store and the disk snapshot untouched with an empty
effect trace (for ReplacePhoto the multer middleware may still have stored
the uploaded blob, but the store is not consulted). -/
theorem malformed_id_rejected (st : ServerState) (requ : UpdateReq)
    (reqp : PhotoReq) (hp : Option String) :
    getInventoryId st none = ⟨.badRequest "Invalid id", st, []⟩
    ∧ putInventoryId st none requ = ⟨.badRequest "Invalid id", st, []⟩
    ∧ deleteInventoryId st none = ⟨.badRequest "Invalid id", st, []⟩
    ∧ getInventoryIdPhoto st none = ⟨.badRequest "Invalid id", st, []⟩
    ∧ (putInventoryIdPhoto st none reqp).resp = .badRequest "Invalid id"
    ∧ (putInventoryIdPhoto st none reqp).state.inventory = st.inventory
    ∧ (putInventoryIdPhoto st none reqp).state.disk = st.disk
    ∧ (putInventoryIdPhoto st none reqp).trace = []
    ∧ postSearch st { id := none, has_photo := hp } = ⟨.badRequest "Invalid id", st, []⟩ := by
  refine ⟨rfl, rfl, rfl, rfl, ?_, ?_, ?_, ?_, rfl⟩ <;>
    simp [putInventoryIdPhoto, multerStore_inventory, multerStore_disk]

/-- C1: every mutating operation that completes successfully (Register 201,
Update 200, Delete 200, ReplacePhoto 200, and the Search description-append
side effect) awaits `saveInventory` with the full new in-memory sequence
before its response, so afterwards the disk snapshot equals the in-memory
store exactly; the effect trace begins with that save event. -/
theorem mutation_persists_snapshot (st : ServerState) (reqr : RegisterReq)
    (requ : UpdateReq) (reqp : PhotoReq) (reqs : SearchReq) (idu idd idp : Option Int) :
    ((postRegister st reqr).resp.status = 201 →
      (postRegister st reqr).state.disk = (postRegister st reqr).state.inventory
      ∧ (postRegister st reqr).trace = [Ev.save (postRegister st reqr).state.inventory])
    ∧ ((putInventoryId st idu requ).resp.status = 200 →
      (putInventoryId st idu requ).state.disk = (putInventoryId st idu requ).state.inventory
      ∧ (putInventoryId st idu requ).trace
          = [Ev.save (putInventoryId st idu requ).state.inventory])
    ∧ ((deleteInventoryId st idd).resp.status = 200 →
      (deleteInventoryId st idd).state.disk = (deleteInventoryId st idd).state.inventory
      ∧ (deleteInventoryId st idd).trace.head?
          = some (Ev.save (deleteInventoryId st idd).state.inventory))
    ∧ ((putInventoryIdPhoto st idp reqp).resp.status = 200 →
      (putInventoryIdPhoto st idp reqp).state.disk
          = (putInventoryIdPhoto st idp reqp).state.inventory
      ∧ (putInventoryIdPhoto st idp reqp).trace
          = [Ev.save (putInventoryIdPhoto st idp reqp).state.inventory])
    ∧ ((postSearch st reqs).state.inventory ≠ st.inventory →
      (postSearch st reqs).state.disk = (postSearch st reqs).state.inventory
      ∧ (postSearch st reqs).trace = [Ev.save (postSearch st reqs).state.inventory]) := by
  refine ⟨?_, ?_, ?_, ?_, ?_⟩
  · intro hs
    cases h : nameBlank reqr.inventory_name with
    | true => rw [postRegister] at hs; simp [h, Resp.status] at hs
    | false => constructor <;> simp [postRegister, h]
  · intro hs
    rcases idu with _ | id
    · rw [putInventoryId] at hs; simp [Resp.status] at hs
    · rcases hf : findItemById st.inventory id with _ | item
      · rw [putInventoryId] at hs; simp [hf, Resp.status] at hs
      · constructor <;> simp [putInventoryId, hf]
  · intro hs
    rcases idd with _ | id
    · rw [deleteInventoryId] at hs; simp [Resp.status] at hs
    · rcases hf : findItemById st.inventory id with _ | item
      · rw [deleteInventoryId] at hs; simp [hf, Resp.status] at hs
      · rcases hp : item.photoFilename with _ | f <;>
          constructor <;> simp [deleteInventoryId, hf, hp]
  · intro hs
    rcases idp with _ | id
    · rw [putInventoryIdPhoto] at hs; simp [Resp.status] at hs
    · rcases hf : findItemById st.inventory id with _ | item
      · rw [putInventoryIdPhoto] at hs
        simp [multerStore_inventory, hf, Resp.status] at hs
      · rcases hpf : reqp.photoFile with _ | f
        · rw [putInventoryIdPhoto] at hs
          simp [multerStore_inventory, hf, hpf, Resp.status] at hs
        · constructor <;> simp [putInventoryIdPhoto, multerStore_inventory, hf, hpf]
  · intro hne
    rcases hid : reqs.id with _ | id
    · exact absurd (by simp [postSearch, hid]) hne
    · rcases hf : findItemById st.inventory id with _ | item
      · exact absurd (by simp [postSearch, hid, hf]) hne
      · cases hc : (truthy reqs.has_photo && item.photoFilename.isSome) with
        | false => exact absurd (by simp [postSearch, hid, hf, hc]) hne
        | true =>
          cases hinc : jsIncludes item.description (photoLinkText item.id) with
          | true => exact absurd (by simp [postSearch, hid, hf, hc, hinc]) hne
          | false => constructor <;> simp [postSearch, hid, hf, hc, hinc]

/-- Witness for C1: a concrete successful registration leaves the disk
snapshot equal to the in-memory store. -/
theorem mutation_persists_snapshot_witness :
    (postRegister emptyState
      { inventory_name := some "Laptop", description := none, photoFile := none }).state.disk
    = (postRegister emptyState
      { inventory_name := some "Laptop", description := none, photoFile := none }).state.inventory :=
  ((mutation_persists_snapshot emptyState
    { inventory_name := some "Laptop", description := none, photoFile := none }
    { inventory_name := none, description := none }
    { photoFile := none }
    { id := none, has_photo := none }
    none none none).1 (by decide)).1

/-- C4: an Update on an existing item applies only the supplied fields,
trimmed: a description-only patch changes just the description, a name-only
patch changes just the name, and in both cases id and photo reference are
untouched (the record-update form of the conclusions fixes every other
field). -/
theorem update_frame_preserves_unpatched (st : ServerState) (id : Int) (item : Item)
    (d nm : String) (hf : findItemById st.inventory id = some item) :
    (findItemById
        (putInventoryId st (some id)
          { inventory_name := none, description := some d }).state.inventory id
      = some { item with description := jsTrim d })
    ∧ (putInventoryId st (some id)
        { inventory_name := none, description := some d }).resp
      = .okItem (itemView { item with description := jsTrim d })
    ∧ (findItemById
        (putInventoryId st (some id)
          { inventory_name := some nm, description := none }).state.inventory id
      = some { item with inventory_name := jsTrim nm })
    ∧ (putInventoryId st (some id)
        { inventory_name := some nm, description := none }).resp
      = .okItem (itemView { item with inventory_name := jsTrim nm }) := by
  refine ⟨?_, ?_, ?_, ?_⟩
  · rw [putInventoryId]
    simp only [hf]
    rw [findItemById_updateFirst (applyPatch_id _)]
    rw [hf]
    simp [applyPatch]
  · rw [putInventoryId]
    simp only [hf]
    simp [applyPatch]
  · rw [putInventoryId]
    simp only [hf]
    rw [findItemById_updateFirst (applyPatch_id _)]
    rw [hf]
    simp [applyPatch]
  · rw [putInventoryId]
    simp only [hf]
    simp [applyPatch]

/-- Witness for C4: on a one-item store, a description-only update leaves the
name field as registered. -/
theorem update_frame_preserves_unpatched_witness :
    findItemById
      (putInventoryId
        { inventory := [{ id := 1, inventory_name := "Laptop", description := "Dell",
                          photoFilename := none }]
          disk := [{ id := 1, inventory_name := "Laptop", description := "Dell",
                     photoFilename := none }]
          photos := [] }
        (some 1) { inventory_name := none, description := some " new " }).state.inventory 1
    = some { id := 1, inventory_name := "Laptop", description := "new",
             photoFilename := none } :=
  (update_frame_preserves_unpatched _ 1
    { id := 1, inventory_name := "Laptop", description := "Dell", photoFilename := none }
    " new " "unused" (by decide)).1

/-- C5: for an existing item with a photo, Search with a truthy `has_photo`
flag appends the link text to the description exactly once: when the text is
not yet contained it is appended (and persisted), when it is already
contained the state is untouched, and a second identical Search leaves the
state of the first call unchanged. -/
theorem search_photo_link_append_idempotent (st : ServerState) (id : Int)
    (item : Item) (f : String) (req : SearchReq)
    (hrid : req.id = some id)
    (hfind : findItemById st.inventory id = some item)
    (hph : item.photoFilename = some f)
    (hfl : truthy req.has_photo = true) :
    (jsIncludes item.description (photoLinkText id) = false →
      findItemById (postSearch st req).state.inventory id
        = some { item with description := item.description ++ photoLinkText id }
      ∧ (postSearch st req).state.disk = (postSearch st req).state.inventory)
    ∧ (jsIncludes item.description (photoLinkText id) = true →
      (postSearch st req).state = st)
    ∧ (postSearch (postSearch st req).state req).state = (postSearch st req).state := by
  have hid : item.id = id := findItemById_some hfind
  have hcond : (truthy req.has_photo && item.photoFilename.isSome) = true := by
    rw [hfl, hph]; rfl
  have hupd := @findItemById_updateFirst st.inventory id
    (fun it => { it with description := it.description ++ photoLinkText id })
    (fun it => rfl)
  have hfind1 : jsIncludes item.description (photoLinkText id) = false →
      findItemById (postSearch st req).state.inventory id
        = some { item with description := item.description ++ photoLinkText id } := by
    intro hinc
    rw [postSearch, hrid]
    simp only [hfind, hcond, if_true, hid, hinc, Bool.false_eq_true, if_false]
    rw [hupd, hfind]
    simp [hid]
  refine ⟨?_, ?_, ?_⟩
  · intro hinc
    refine ⟨hfind1 hinc, ?_⟩
    rw [postSearch, hrid]
    simp only [hfind, hcond, if_true, hid, hinc, Bool.false_eq_true, if_false]
  · intro hinc
    rw [postSearch, hrid]
    simp only [hfind, hcond, if_true, hid, hinc]
  · cases hinc : jsIncludes item.description (photoLinkText id) with
    | true =>
      have hst : (postSearch st req).state = st := by
        rw [postSearch, hrid]
        simp only [hfind, hcond, if_true, hid, hinc]
      rw [hst]
      exact hst
    | false =>
      have hcond1 : (truthy req.has_photo
          && ({ item with description := item.description ++ photoLinkText id
              } : Item).photoFilename.isSome) = true := by
        rw [hfl, hph]; rfl
      rw [postSearch, hrid]
      simp only [hfind1 hinc, hcond1, if_true, hid, jsIncludes_append_self]

/-- Witness for C5: on a concrete one-item store with a photo, the second
identical search leaves the state of the first search unchanged. -/
theorem search_photo_link_append_idempotent_witness :
    (postSearch
      (postSearch
        { inventory := [{ id := 1, inventory_name := "Cam", description := "",
                          photoFilename := some "p.jpg" }]
          disk := [{ id := 1, inventory_name := "Cam", description := "",
                     photoFilename := some "p.jpg" }]
          photos := ["p.jpg"] }
        { id := some 1, has_photo := some "on" }).state
      { id := some 1, has_photo := some "on" }).state
    = (postSearch
        { inventory := [{ id := 1, inventory_name := "Cam", description := "",
                          photoFilename := some "p.jpg" }]
          disk := [{ id := 1, inventory_name := "Cam", description := "",
                     photoFilename := some "p.jpg" }]
          photos := ["p.jpg"] }
        { id := some 1, has_photo := some "on" }).state :=
  (search_photo_link_append_idempotent _ 1
    { id := 1, inventory_name := "Cam", description := "", photoFilename := some "p.jpg" }
    "p.jpg" { id := some 1, has_photo := some "on" }
    rfl (by decide) rfl (by decide)).2.2

/-- C6: a successful Delete of an item with a photo removes the item, writes
the snapshot (equal to the new store) before the best-effort blob unlink in
the effect trace, erases the blob from the photo directory (a missing file
simply leaves the directory unchanged, still a 200), and afterwards both Get
and GetPhoto on that id answer 404. Ids are assumed unique in the store, the
data-model invariant. -/
theorem delete_removes_item_and_blob (st : ServerState) (id : Int) (item : Item)
    (f : String)
    (hnd : (st.inventory.map Item.id).Nodup)
    (hfind : findItemById st.inventory id = some item)
    (hph : item.photoFilename = some f) :
    (deleteInventoryId st (some id)).resp = .okMessage "Item deleted"
    ∧ (deleteInventoryId st (some id)).state.inventory = removeFirst st.inventory id
    ∧ (deleteInventoryId st (some id)).state.disk
        = (deleteInventoryId st (some id)).state.inventory
    ∧ (deleteInventoryId st (some id)).trace
        = [Ev.save (deleteInventoryId st (some id)).state.inventory, Ev.unlink f]
    ∧ (deleteInventoryId st (some id)).state.photos = st.photos.erase f
    ∧ (getInventoryId (deleteInventoryId st (some id)).state (some id)).resp
        = .notFound "Item not found"
    ∧ (getInventoryIdPhoto (deleteInventoryId st (some id)).state (some id)).resp
        = .notFound "Photo not found" := by
  have hrm : findItemById (removeFirst st.inventory id) id = none :=
    findItemById_removeFirst hnd
  refine ⟨?_, ?_, ?_, ?_, ?_, ?_, ?_⟩ <;>
    simp [deleteInventoryId, hfind, hph, getInventoryId, getInventoryIdPhoto, hrm]

/-- Witness for C6: deleting the only item of a concrete store removes it and
then a Get on its id is a 404. -/
theorem delete_removes_item_and_blob_witness :
    (getInventoryId
      (deleteInventoryId
        { inventory := [{ id := 1, inventory_name := "Cam", description := "",
                          photoFilename := some "p.jpg" }]
          disk := [{ id := 1, inventory_name := "Cam", description := "",
                     photoFilename := some "p.jpg" }]
          photos := ["p.jpg"] }
        (some 1)).state (some 1)).resp
    = .notFound "Item not found" :=
  (delete_removes_item_and_blob _ 1
    { id := 1, inventory_name := "Cam", description := "", photoFilename := some "p.jpg" }
    "p.jpg" (by decide) (by decide) rfl).2.2.2.2.2.1

/-- Counterexample to C8: the store state reached by registering one item and
then updating it with a whitespace-only name holds an item whose name is the
empty string — the Update handler trims and stores a provided name without
any non-blank check. -/
theorem name_nonempty_violated_by_blank_update :
    (putInventoryId
        (postRegister emptyState
          { inventory_name := some "Laptop", description := none, photoFile := none }).state
        (some 1)
        { inventory_name := some "   ", description := none }).state.inventory.map
      Item.inventory_name = [""] := by decide

/-- C8 as amended: names are non-empty at creation (Register rejects blank
names and stores a trimmed non-blank name, preserving the all-names-non-empty
invariant), and Update preserves the invariant only when the supplied name is
absent or non-blank after trimming; an Update supplying a blank name stores
the empty string. -/
theorem name_nonempty_register_and_guarded_update (st : ServerState)
    (reqr : RegisterReq) (requ : UpdateReq) (idu : Option Int)
    (hinv : ∀ it ∈ st.inventory, it.inventory_name ≠ "") :
    (∀ it ∈ (postRegister st reqr).state.inventory, it.inventory_name ≠ "")
    ∧ ((∀ nm, requ.inventory_name = some nm → jsTrim nm ≠ "") →
        ∀ it ∈ (putInventoryId st idu requ).state.inventory, it.inventory_name ≠ "") := by
  constructor
  · intro it hit
    cases h : nameBlank reqr.inventory_name with
    | true =>
      rw [(postRegister_blank h).2.1] at hit
      exact hinv it hit
    | false =>
      rw [postRegister_inventory h] at hit
      rcases List.mem_append.mp hit with hmem | hmem
      · exact hinv it hmem
      · rcases nameBlank_false h with ⟨s, hs, hts⟩
        simp only [List.mem_singleton] at hmem
        rw [hmem]
        simpa [registeredItem, hs] using hts
  · intro hnm it hit
    rcases idu with _ | id
    · exact hinv it (by simpa [putInventoryId] using hit)
    · rcases hf : findItemById st.inventory id with _ | item
      · rw [putInventoryId] at hit
        simp only [hf] at hit
        exact hinv it hit
      · rw [putInventoryId] at hit
        simp only [hf] at hit
        rcases mem_updateFirst hit with hmem | ⟨y, hy, hey⟩
        · exact hinv it hmem
        · rw [hey, applyPatch_name]
          cases hn : requ.inventory_name with
          | none => exact hinv y hy
          | some nm => exact hnm nm hn

/-- Witness for C8 as amended: after a non-blank update on a freshly
registered item, the updated item in the store has a non-empty name. -/
theorem name_nonempty_register_and_guarded_update_witness :
    ({ id := 1, inventory_name := "Tablet", description := "",
       photoFilename := none } : Item).inventory_name ≠ "" :=
  (name_nonempty_register_and_guarded_update
    (postRegister emptyState
      { inventory_name := some "Laptop", description := none, photoFile := none }).state
    { inventory_name := some "x", description := none, photoFile := none }
    { inventory_name := some " Tablet ", description := none }
    (some 1)
    (by decide)).2
    (by intro nm h; injection h with h; subst h; decide)
    { id := 1, inventory_name := "Tablet", description := "", photoFilename := none }
    (by decide)

/-- C9: a Register request that carries a photo file but a blank or missing
name is rejected with 400 and the item store is untouched, yet the multer
middleware has already written the uploaded blob into the photos directory,
and no item references it (an orphan blob) — nor does the handler emit any
unlink to remove it. -/
theorem register_orphan_blob_on_blank_name (st : ServerState) (req : RegisterReq)
    (f : String)
    (hpf : req.photoFile = some f)
    (hb : nameBlank req.inventory_name = true)
    (hfresh : ∀ it ∈ st.inventory, it.photoFilename ≠ some f) :
    (postRegister st req).resp = .badRequest "inventory_name is required"
    ∧ (postRegister st req).state.inventory = st.inventory
    ∧ f ∈ (postRegister st req).state.photos
    ∧ (∀ it ∈ (postRegister st req).state.inventory, it.photoFilename ≠ some f)
    ∧ (postRegister st req).trace = [] := by
  refine ⟨(postRegister_blank hb).1, (postRegister_blank hb).2.1, ?_, ?_, ?_⟩
  · simp [postRegister, hb, multerStore, hpf]
  · intro it hit
    rw [(postRegister_blank hb).2.1] at hit
    exact hfresh it hit
  · exact (postRegister_blank hb).2.2.2

/-- Witness for C9: a concrete blank-name upload leaves the blob in the
photos directory. -/
theorem register_orphan_blob_on_blank_name_witness :
    "photo_9.jpg" ∈ (postRegister emptyState
      { inventory_name := none, description := none,
        photoFile := some "photo_9.jpg" }).state.photos :=
  (register_orphan_blob_on_blank_name emptyState
    { inventory_name := none, description := none, photoFile := some "photo_9.jpg" }
    "photo_9.jpg" rfl rfl (by decide)).2.2.1

/-- Counterexample to C10: a reachable non-empty store holding only the item
with id 2 (register two items, delete id 1); deleting its maximal id 2 and
registering again assigns id 1, not 2 — `generateId` restarts from the live
store, so the deleted maximal id is not always reassigned. -/
theorem delete_max_id_reuse_cex :
    ((deleteInventoryId
        (registerMany emptyState
          [ { inventory_name := some "A", description := none, photoFile := none },
            { inventory_name := some "B", description := none, photoFile := none } ])
        (some 1)).state.inventory.map Item.id = [2])
    ∧ (postRegister
        (deleteInventoryId
          (deleteInventoryId
            (registerMany emptyState
              [ { inventory_name := some "A", description := none, photoFile := none },
                { inventory_name := some "B", description := none, photoFile := none } ])
            (some 1)).state
          (some 2)).state
        { inventory_name := some "C", description := none,
          photoFile := none }).state.inventory.map Item.id = [1] := by
  constructor <;> decide

/-- C10 as amended: when the store's ids are exactly 1..N+1 (the ids produced
by registrations without deletions), deleting the item with the maximal id
N+1 succeeds, leaves ids 1..N, and the next successful Register assigns N+1
again — the deleted id is reused; for other stores the next Register assigns
max(remaining ids)+1 (1 on an emptied store), which can differ from the
deleted id. -/
theorem delete_max_id_reuse_for_consecutive_ids (st : ServerState) (n : Nat)
    (req : RegisterReq)
    (hids : st.inventory.map Item.id = idRange (n + 1))
    (hname : nameBlank req.inventory_name = false) :
    (deleteInventoryId st (some ((n : Int) + 1))).resp = .okMessage "Item deleted"
    ∧ (deleteInventoryId st (some ((n : Int) + 1))).state.inventory.map Item.id
        = idRange n
    ∧ (postRegister (deleteInventoryId st (some ((n : Int) + 1))).state
        req).state.inventory.map Item.id = idRange n ++ [(n : Int) + 1] := by
  have hmem : ((n : Int) + 1) ∈ st.inventory.map Item.id := by
    rw [hids, idRange_succ]
    exact List.mem_append.mpr (Or.inr (List.mem_singleton.mpr rfl))
  obtain ⟨it, hfind⟩ := findItemById_isSome_of_mem hmem
  have hnotin : ((n : Int) + 1) ∉ idRange n := by
    intro hmm
    have := mem_idRange_le hmm
    omega
  have hrm : (removeFirst st.inventory ((n : Int) + 1)).map Item.id = idRange n :=
    map_id_removeFirst (by rw [hids, idRange_succ]) hnotin
  have hst : (deleteInventoryId st (some ((n : Int) + 1))).state.inventory
      = removeFirst st.inventory ((n : Int) + 1) := by
    rcases hph : it.photoFilename with _ | g <;>
      simp [deleteInventoryId, hfind, hph]
  refine ⟨?_, ?_, ?_⟩
  · rcases hph : it.photoFilename with _ | g <;>
      simp [deleteInventoryId, hfind, hph]
  · rw [hst, hrm]
  · rw [postRegister_inventory hname, List.map_append, hst, hrm]
    have hgen : generateId (removeFirst st.inventory ((n : Int) + 1)) = (n : Int) + 1 :=
      generateId_idRange hrm
    simp [registeredItem, hst, hrm, hgen]

/-- Witness for C10 as amended: on a concrete store with ids `[1, 2]`,
deleting id 2 and registering again reuses id 2. -/
theorem delete_max_id_reuse_for_consecutive_ids_witness :
    (postRegister
      (deleteInventoryId
        { inventory :=
            [ { id := 1, inventory_name := "A", description := "", photoFilename := none },
              { id := 2, inventory_name := "B", description := "", photoFilename := none } ]
          disk :=
            [ { id := 1, inventory_name := "A", description := "", photoFilename := none },
              { id := 2, inventory_name := "B", description := "", photoFilename := none } ]
          photos := [] }
        (some 2)).state
      { inventory_name := some "C", description := none,
        photoFile := none }).state.inventory.map Item.id = idRange 1 ++ [(1 : Int) + 1] :=
  (delete_max_id_reuse_for_consecutive_ids _ 1
    { inventory_name := some "C", description := none, photoFile := none }
    (by decide) (by decide)).2.2

end Inventory
